import Mathlib

/-!
Verification development for the virtual-museum recommendation backend
(`src/app.py`).

The first half embeds the graph-recommendation query (`CYPHER_QUERY`
together with `Recommender.graph_query`) as a function over an explicit
property-graph model: specimen nodes carry a `Specimen` name property and
typed edges lead to attribute nodes.  The second half embeds the semantic
retrieval/enrichment pipeline (`semantic_query`, `describe_results`,
`describe_result`) and the two Flask endpoints, with the external services
(graph store, embedding, vector store, generation) given as oracles and an
explicit log of the upstream calls each request performs.
-/

namespace VRMuseum

abbrev NodeId := Nat

/-- A typed directed edge of the property graph. -/
structure Edge where
  src : NodeId
  rel : String
  dst : NodeId
deriving DecidableEq, Repr

/-- A graph snapshot: the `Specimen`-labelled nodes with their `Specimen`
name property, and all relationships. -/
structure Graph where
  specimens : List (NodeId × String)
  edges : List Edge
deriving Repr

/-- The fixed 14-type relationship allow-list of `CYPHER_QUERY`. -/
def allowedRelTypes : List String :=
  ["AT_GROWTH_STAGE", "BONE_IS", "DURING", "FROM_ERA", "KERATIN_ON",
   "LIVES_IN_HABITAT", "MADE_OF", "MUSEUM_ACQUISITION", "ORIGINATED",
   "PRESERVED", "TEETH_ARE", "TYPE_OF", "TYPE_OF_HIGH", "TYPE_OF_MID"]

def isAllowed (r : String) : Bool := allowedRelTypes.contains r

/-- Nodes matched by `MATCH (a:Specimen) WHERE a.Specimen = $specimen_name`. -/
def matchedAs (g : Graph) (name : String) : List NodeId :=
  (g.specimens.filter (fun p => p.2 == name)).map Prod.fst

/-- `MATCH (a)-[r]->(m) WHERE type(r) IN [...] ... collect(DISTINCT m)`:
the distinct attribute nodes reachable from `a` over allowed edges. -/
def outAttrs (g : Graph) (a : NodeId) : List NodeId :=
  ((g.edges.filter (fun e => e.src == a && isAllowed e.rel)).map Edge.dst).dedup

/-- Whether `cand` has an allowed edge into attribute node `m`
(`MATCH (m)<-[:AT_GROWTH_STAGE|...]-(rec:Specimen)`). -/
def hasAllowedEdge (g : Graph) (cand m : NodeId) : Bool :=
  g.edges.any (fun e => e.src == cand && e.dst == m && isAllowed e.rel)

/-- The distinct attribute nodes `m` counted by `count(DISTINCT m)` for a
candidate `cand`: some matched node `a ≠ cand` reaches `m` over an allowed
edge, and `cand` also reaches `m` over an allowed edge. -/
def sharedAttrs (g : Graph) (name : String) (cand : NodeId) : List NodeId :=
  (((matchedAs g name).filter (fun a => a != cand)).flatMap
    (fun a => (outAttrs g a).filter (fun m => hasAllowedEdge g cand m))).dedup

/-- The distinct `Specimen`-labelled node ids. -/
def specimenIds (g : Graph) : List NodeId :=
  (g.specimens.map Prod.fst).dedup

/-- The candidate nodes `rec` that produce at least one row of the query. -/
def candidates (g : Graph) (name : String) : List NodeId :=
  (specimenIds g).filter (fun cand => !(sharedAttrs g name cand).isEmpty)

/-- Each candidate paired with its score `count(DISTINCT m)`. -/
def scoredCandidates (g : Graph) (name : String) : List (NodeId × Nat) :=
  (candidates g name).map (fun cand => (cand, (sharedAttrs g name cand).length))

/-- `ORDER BY score DESC` as a relation on rows. -/
def scoreGe (p q : NodeId × Nat) : Prop := q.2 ≤ p.2

instance : DecidableRel scoreGe := fun p q => Nat.decLe q.2 p.2

instance : IsTotal (NodeId × Nat) scoreGe := ⟨fun a b => (Nat.le_total b.2 a.2)⟩

instance : IsTrans (NodeId × Nat) scoreGe :=
  ⟨fun _ _ _ hab hbc => Nat.le_trans hbc hab⟩

/-- The result rows after `ORDER BY score DESC` (one stable realisation). -/
def graphRows (g : Graph) (name : String) : List (NodeId × Nat) :=
  (scoredCandidates g name).insertionSort scoreGe

/-- `rec.Specimen`: the name property of a node. -/
def specName (g : Graph) (n : NodeId) : String :=
  ((g.specimens.find? (fun p => p.1 == n)).map Prod.snd).getD ""

/-- `Recommender.graph_query`: `RETURN rec.Specimen ... ORDER BY score DESC
LIMIT 5`. -/
def graph_query (g : Graph) (name : String) : List String :=
  ((graphRows g name).take 5).map (fun p => specName g p.1)

/-- Specification-level statement that attribute node `m` is shared between
the queried specimen and candidate `cand` over the allow-list. -/
def SharedVia (g : Graph) (name : String) (cand m : NodeId) : Prop :=
  ∃ a, (a, name) ∈ g.specimens ∧ a ≠ cand ∧
    (∃ e ∈ g.edges, e.src = a ∧ e.dst = m ∧ isAllowed e.rel) ∧
    (∃ e ∈ g.edges, e.src = cand ∧ e.dst = m ∧ isAllowed e.rel)

/-- Rows a database execution may return: some permutation of the scored
candidates that is sorted by score descending (ties in any order). -/
def validRows (g : Graph) (name : String) (l : List (NodeId × Nat)) : Prop :=
  l.Perm (scoredCandidates g name) ∧ l.Pairwise scoreGe

/-- Outputs a database execution of the query may return. -/
def validOutput (g : Graph) (name : String) (out : List String) : Prop :=
  ∃ l, validRows g name l ∧ out = (l.take 5).map (fun p => specName g p.1)

/-- The scenario graph of §8 of the spec: Tyrannosaurus shares an era and a
habitat attribute with Allosaurus and only the era with Velociraptor. -/
def gscen : Graph :=
  { specimens := [(0, "Tyrannosaurus"), (1, "Allosaurus"), (2, "Velociraptor")],
    edges :=
      [⟨0, "FROM_ERA", 10⟩, ⟨0, "LIVES_IN_HABITAT", 11⟩,
       ⟨1, "FROM_ERA", 10⟩, ⟨1, "LIVES_IN_HABITAT", 11⟩,
       ⟨2, "FROM_ERA", 10⟩] }

example : graph_query gscen "Tyrannosaurus" = ["Allosaurus", "Velociraptor"] := by
  decide

theorem mem_matchedAs {g : Graph} {name : String} {a : NodeId} :
    a ∈ matchedAs g name ↔ (a, name) ∈ g.specimens := by
  simp only [matchedAs, List.mem_map, List.mem_filter, beq_iff_eq]
  constructor
  · rintro ⟨⟨x, y⟩, ⟨hx, rfl⟩, rfl⟩
    exact hx
  · intro h
    exact ⟨(a, name), ⟨h, rfl⟩, rfl⟩

theorem mem_outAttrs {g : Graph} {a m : NodeId} :
    m ∈ outAttrs g a ↔ ∃ e ∈ g.edges, e.src = a ∧ e.dst = m ∧ isAllowed e.rel := by
  simp only [outAttrs, List.mem_dedup, List.mem_map, List.mem_filter,
    Bool.and_eq_true, beq_iff_eq]
  constructor
  · rintro ⟨e, ⟨he, hsrc, hrel⟩, rfl⟩
    exact ⟨e, he, hsrc, rfl, hrel⟩
  · rintro ⟨e, he, hsrc, hdst, hrel⟩
    exact ⟨e, ⟨he, hsrc, hrel⟩, hdst⟩

theorem hasAllowedEdge_iff {g : Graph} {cand m : NodeId} :
    hasAllowedEdge g cand m = true ↔
      ∃ e ∈ g.edges, e.src = cand ∧ e.dst = m ∧ isAllowed e.rel := by
  simp only [hasAllowedEdge, List.any_eq_true, Bool.and_eq_true, beq_iff_eq]
  constructor
  · rintro ⟨e, he, ⟨hsrc, hdst⟩, hrel⟩
    exact ⟨e, he, hsrc, hdst, hrel⟩
  · rintro ⟨e, he, hsrc, hdst, hrel⟩
    exact ⟨e, he, ⟨hsrc, hdst⟩, hrel⟩

theorem mem_sharedAttrs {g : Graph} {name : String} {cand m : NodeId} :
    m ∈ sharedAttrs g name cand ↔ SharedVia g name cand m := by
  simp only [sharedAttrs, SharedVia, List.mem_dedup, List.mem_flatMap, List.mem_filter,
    bne_iff_ne, ne_eq]
  constructor
  · rintro ⟨a, ⟨hmem, hne⟩, hm, hedge⟩
    exact ⟨a, mem_matchedAs.1 hmem, hne, mem_outAttrs.1 hm, hasAllowedEdge_iff.1 hedge⟩
  · rintro ⟨a, hmem, hne, hout, hedge⟩
    exact ⟨a, ⟨mem_matchedAs.2 hmem, hne⟩, mem_outAttrs.2 hout,
      hasAllowedEdge_iff.2 hedge⟩

theorem mem_graphRows {g : Graph} {name : String} {p : NodeId × Nat} :
    p ∈ graphRows g name ↔ p ∈ scoredCandidates g name :=
  (List.perm_insertionSort scoreGe (scoredCandidates g name)).mem_iff

theorem scoredCandidates_score {g : Graph} {name : String} {p : NodeId × Nat}
    (h : p ∈ scoredCandidates g name) :
    p.2 = (sharedAttrs g name p.1).length ∧ p.1 ∈ candidates g name := by
  simp only [scoredCandidates, List.mem_map] at h
  obtain ⟨c, hc, rfl⟩ := h
  exact ⟨rfl, hc⟩

/-- Claim C1: for every specimen name, `graph_query` returns a sequence of
specimen identifiers of length at most 5, ordered by descending score, where
a candidate's score is the count of distinct attribute nodes it shares with
the queried specimen via the fixed 14-type relationship allow-list. -/
theorem graph_query_ranking (g : Graph) (name : String) :
    (graph_query g name).length ≤ 5 ∧
    graph_query g name = ((graphRows g name).take 5).map (fun p => specName g p.1) ∧
    ((graphRows g name).take 5).Pairwise (fun p q => q.2 ≤ p.2) ∧
    ∀ p ∈ graphRows g name,
      p.2 = (sharedAttrs g name p.1).length ∧
      (sharedAttrs g name p.1).Nodup ∧
      ∀ m, m ∈ sharedAttrs g name p.1 ↔ SharedVia g name p.1 m := by
  refine ⟨?_, rfl, ?_, ?_⟩
  · simp only [graph_query, List.length_map, List.length_take]
    omega
  · exact List.Pairwise.sublist (List.take_sublist 5 _)
      (List.sorted_insertionSort scoreGe _)
  · intro p hp
    obtain ⟨hscore, _⟩ := scoredCandidates_score (mem_graphRows.1 hp)
    exact ⟨hscore, List.nodup_dedup _, fun m => mem_sharedAttrs⟩

/-- The ranking theorem instantiated on the scenario graph: Allosaurus is a
row with score 2 (two distinct shared attribute nodes). -/
theorem graph_query_ranking_witness :
    (graph_query gscen "Tyrannosaurus").length ≤ 5 ∧
    2 = (sharedAttrs gscen "Tyrannosaurus" 1).length :=
  ⟨(graph_query_ranking gscen "Tyrannosaurus").1,
   ((graph_query_ranking gscen "Tyrannosaurus").2.2.2 (1, 2) (by decide)).1⟩

/-- The spec's data-model assumption that a specimen is identified by a
unique name. -/
def uniqueNames (g : Graph) : Prop := (g.specimens.map Prod.snd).Nodup

instance (g : Graph) : Decidable (uniqueNames g) :=
  inferInstanceAs (Decidable ((g.specimens.map Prod.snd).Nodup))

theorem specName_mem {g : Graph} {n : NodeId}
    (h : ∃ pr ∈ g.specimens, pr.1 = n) : (n, specName g n) ∈ g.specimens := by
  obtain ⟨pr, hpr, hn⟩ := h
  have hsome : (g.specimens.find? (fun p => p.1 == n)).isSome := by
    rw [List.find?_isSome]
    exact ⟨pr, hpr, by simp [hn]⟩
  obtain ⟨q, hq⟩ := Option.isSome_iff_exists.1 hsome
  have hq1 : q.1 = n := by simpa using List.find?_some hq
  have hqmem : q ∈ g.specimens := List.mem_of_find?_eq_some hq
  have hval : specName g n = q.2 := by simp [specName, hq]
  rw [hval, ← hq1]
  exact hqmem

/-- Claim C2: for every specimen name, the sequence returned by
`graph_query` never contains the queried specimen name itself (under the
data model's unique-name invariant). -/
theorem graph_query_no_self (g : Graph) (name : String) (h : uniqueNames g) :
    name ∉ graph_query g name := by
  intro hmem
  simp only [graph_query, List.mem_map] at hmem
  obtain ⟨p, hp, hname⟩ := hmem
  obtain ⟨_, hcand⟩ := scoredCandidates_score (mem_graphRows.1 (List.mem_of_mem_take hp))
  simp only [candidates, List.mem_filter, Bool.not_eq_true'] at hcand
  obtain ⟨hid, hne⟩ := hcand
  have hnonnil : sharedAttrs g name p.1 ≠ [] := by
    intro hnil
    rw [hnil] at hne
    simp at hne
  obtain ⟨m, hm⟩ := List.exists_mem_of_ne_nil _ hnonnil
  obtain ⟨a, hamem, hanec, _, _⟩ := mem_sharedAttrs.1 hm
  have hpr : ∃ pr ∈ g.specimens, pr.1 = p.1 := by
    simpa only [specimenIds, List.mem_dedup, List.mem_map] using hid
  have hself : (p.1, name) ∈ g.specimens := by
    have := specName_mem hpr
    rwa [hname] at this
  have : a = p.1 := by
    have := List.inj_on_of_nodup_map h hamem hself (by simp)
    exact congrArg Prod.fst this
  exact hanec this

/-- The no-self-recommendation theorem instantiated on the scenario graph. -/
theorem graph_query_no_self_witness :
    uniqueNames gscen ∧ "Tyrannosaurus" ∉ graph_query gscen "Tyrannosaurus" :=
  ⟨by decide, graph_query_no_self gscen "Tyrannosaurus" (by decide)⟩

/-- Claim C3: for a specimen name absent from the graph, `graph_query`
returns the empty sequence (a value, not an error); likewise when the
specimen exists but no other specimen shares any allowed attribute with
it. -/
theorem graph_query_empty_cases (g : Graph) (name : String) :
    (name ∉ g.specimens.map Prod.snd → graph_query g name = []) ∧
    (name ∈ g.specimens.map Prod.snd →
      (∀ cand ∈ specimenIds g, sharedAttrs g name cand = []) →
      graph_query g name = []) := by
  have hmain : (∀ cand ∈ specimenIds g, sharedAttrs g name cand = []) →
      graph_query g name = [] := by
    intro hall
    have hcand : candidates g name = [] := by
      rw [candidates, List.filter_eq_nil_iff]
      intro c hc
      simp [hall c hc]
    simp [graph_query, graphRows, scoredCandidates, hcand, List.insertionSort]
  refine ⟨fun habs => hmain ?_, fun _ => hmain⟩
  intro cand _
  have hmatch : matchedAs g name = [] := by
    rw [matchedAs, List.map_eq_nil_iff, List.filter_eq_nil_iff]
    intro p hp hpname
    exact habs (List.mem_map.2 ⟨p, hp, by simpa using hpname⟩)
  simp [sharedAttrs, hmatch]

/-- The empty-result theorem instantiated: querying a name absent from the
scenario graph yields the empty sequence. -/
theorem graph_query_empty_cases_witness :
    graph_query gscen "Stegosaurus" = [] :=
  (graph_query_empty_cases gscen "Stegosaurus").1 (by decide)

/-- A graph with two candidates tied at score 1 against specimen `X`. -/
def gtie : Graph :=
  { specimens := [(0, "X"), (1, "A"), (2, "B")],
    edges := [⟨0, "FROM_ERA", 10⟩, ⟨1, "FROM_ERA", 10⟩, ⟨2, "FROM_ERA", 10⟩] }

/-- Counterexample to claim C4 as stated: `ORDER BY score DESC` constrains
only the scores, so on a fixed snapshot with two equal-score candidates two
executions may return the two distinct sequences `["A", "B"]` and
`["B", "A"]` — both are valid outputs of the query. -/
theorem graph_query_tie_two_outputs :
    validOutput gtie "X" ["A", "B"] ∧ validOutput gtie "X" ["B", "A"] ∧
    (["A", "B"] : List String) ≠ ["B", "A"] := by
  refine ⟨⟨[(1, 1), (2, 1)], ⟨?_, ?_⟩, ?_⟩, ⟨[(2, 1), (1, 1)], ⟨?_, ?_⟩, ?_⟩, ?_⟩ <;>
    decide

/-- Claim C4 (amended): on a fixed graph snapshot any two executions of the
query agree on the sequence of scores (hence on the result length); only
the order among equal-score candidates is unconstrained.  The concrete
`graph_query` realisation is one valid execution. -/
theorem graph_query_deterministic_scores (g : Graph) (name : String)
    (l₁ l₂ : List (NodeId × Nat))
    (h₁ : validRows g name l₁) (h₂ : validRows g name l₂) :
    l₁.map Prod.snd = l₂.map Prod.snd ∧
    ((l₁.take 5).map (fun p => specName g p.1)).length =
      ((l₂.take 5).map (fun p => specName g p.1)).length ∧
    validOutput g name (graph_query g name) := by
  haveI : IsAntisymm Nat (fun a b => b ≤ a) :=
    ⟨fun a b hab hba => Nat.le_antisymm hba hab⟩
  have hperm : List.Perm (l₁.map Prod.snd) (l₂.map Prod.snd) :=
    (h₁.1.map Prod.snd).trans (h₂.1.map Prod.snd).symm
  have hs₁ : (l₁.map Prod.snd).Pairwise (fun a b => b ≤ a) :=
    List.Pairwise.map Prod.snd (fun _ _ hab => hab) h₁.2
  have hs₂ : (l₂.map Prod.snd).Pairwise (fun a b => b ≤ a) :=
    List.Pairwise.map Prod.snd (fun _ _ hab => hab) h₂.2
  have hmap : l₁.map Prod.snd = l₂.map Prod.snd :=
    List.eq_of_perm_of_sorted hperm hs₁ hs₂
  have hlen : l₁.length = l₂.length := by
    have := congrArg List.length hmap
    simpa using this
  refine ⟨hmap, by simp [hlen], graphRows g name, ⟨?_, ?_⟩, rfl⟩
  · exact List.perm_insertionSort scoreGe _
  · exact List.sorted_insertionSort scoreGe _

/-- The amended determinism theorem instantiated on the tied snapshot: the
two tie-permuted executions carry the same score sequence. -/
theorem graph_query_deterministic_scores_witness :
    ([((1 : NodeId), (1 : Nat)), (2, 1)]).map Prod.snd =
      ([((2 : NodeId), (1 : Nat)), (1, 1)]).map Prod.snd :=
  (graph_query_deterministic_scores gtie "X" [(1, 1), (2, 1)] [(2, 1), (1, 1)]
    ⟨by decide, by decide⟩ ⟨by decide, by decide⟩).1

/-! ## Semantic retrieval / enrichment pipeline -/

/-- The vector-store metadata record of a retrieved document
(`metadata['specimen_name']`, `metadata['title']`). -/
structure Metadata where
  specimen_name : String
  title : String
deriving DecidableEq, Repr

/-- One entry of the `recommendations` list built by `semantic_query`. -/
structure Recommendation where
  identifier : String
  name : String
  description : String
  justification : String
deriving DecidableEq, Repr

/-- The external services the pipeline calls, as pure oracles: the embedding
endpoint, the vector store (documents and metadata of the first query, in
rank order), the plain chat completion, the JSON-mode chat completion, and
the parse of a JSON-mode response into the `description` / `justification`
pair (`json.loads` plus field access; `Except.error` carries `str(e)`). -/
structure Services where
  embed : String → List Int
  vquery : List Int → List String × List Metadata
  chat : String → String
  chatJson : String → String → String
  parseStructured : String → Except String (String × String)

/-- One upstream call, for the per-request call log. -/
inductive Call where
  | graphStore (specimen_name : String)
  | embed (text : String)
  | vquery (emb : List Int)
  | chat (prompt : String)
  | chatJson (sys user : String)
deriving DecidableEq, Repr

/-- `SUMMARIZE_PROMPT.format(query=query, retrieval=retrieval)`. -/
def summarize_prompt (query retrieval : String) : String :=
  "A user is searching in a virtual museum. \nThe user asked the following search query: "
    ++ query
    ++ "\nHere are the results that were retrieved: " ++ retrieval
    ++ "\nGenerate a friendly sentence that acknowledges the query \nand reminds the user of what they might be interested in."

/-- `RESULT_PROMPT.format(query=query, title=title, content=content)`. -/
def result_prompt (query title content : String) : String :=
  "A user is searching in a virtual museum. \nThe user asked the following search query: "
    ++ query
    ++ "\nA result was retrieved: " ++ title
    ++ "\nHere is its information: " ++ content
    ++ "\nDescribe the result briefly and cheerfully.\nJustify the result\x27s relevance briefly."

/-- The fixed system message of the JSON-mode per-result call. -/
def json_system_prompt : String :=
  "Output your JSON result as follows: \x7b\"description\": your_description, \"justification\": your_justification\x7d"

/-- `Recommender.describe_results`: joins the document bodies with a blank
line, formats `SUMMARIZE_PROMPT` and performs one chat call. -/
def describe_results (svc : Services) (query : String) (contents : List String) :
    String × List Call :=
  let retrieval := String.intercalate "\n\n" contents
  let prompt := summarize_prompt query retrieval
  (svc.chat prompt, [Call.chat prompt])

/-- `Recommender.describe_result`: formats `RESULT_PROMPT`, performs one
JSON-mode chat call and parses the response into the description and
justification; a parse failure propagates as an error. -/
def describe_result (svc : Services) (query title content : String) :
    Except String (String × String) × List Call :=
  let prompt := result_prompt query title content
  let raw := svc.chatJson json_system_prompt prompt
  (svc.parseStructured raw, [Call.chatJson json_system_prompt prompt])

/-- The `for content, metadata in zip(contents, metadatas)` loop of
`semantic_query`: sequential per-result enrichment, aborting on the first
failure. -/
def enrichLoop (svc : Services) (query : String) :
    List (String × Metadata) → Except String (List Recommendation) × List Call
  | [] => (Except.ok [], [])
  | (content, metadata) :: rest =>
    match describe_result svc query metadata.title content with
    | (Except.ok dj, c) =>
      match enrichLoop svc query rest with
      | (Except.ok recs, cs) =>
        (Except.ok ({ identifier := metadata.specimen_name, name := metadata.title,
                      description := dj.1, justification := dj.2 } :: recs), c ++ cs)
      | (Except.error e, cs) => (Except.error e, c ++ cs)
    | (Except.error e, c) => (Except.error e, c)

/-- `Recommender.semantic_query`: embed the query, query the vector store,
keep the top 5 documents and metadata, generate the overall summary, then
enrich each result in order. -/
def semantic_query (svc : Services) (query : String) :
    Except String (String × List Recommendation) × List Call :=
  let emb := svc.embed query
  let dm := svc.vquery emb
  let contents := dm.1.take 5
  let metadatas := dm.2.take 5
  let gm := describe_results svc query contents
  let res := enrichLoop svc query (contents.zip metadatas)
  (res.1.map (fun recs => (gm.1, recs)),
   Call.embed query :: Call.vquery emb :: (gm.2 ++ res.2))

/-! ## HTTP endpoints -/

/-- The JSON bodies the two endpoints can serialise. -/
inductive Body where
  | graphOk (recommendations : List String)
  | semanticOk (general_message : String) (recommendations : List Recommendation)
  | err (msg : String)
deriving DecidableEq, Repr

structure HttpResponse where
  status : Nat
  body : Body
deriving DecidableEq, Repr

/-- Whether the serialised body carries an `error` field. -/
def hasErrorField : Body → Bool
  | Body.err _ => true
  | _ => false

/-- Python truthiness of `request.args.get(...)`: `None` and the empty
string are both falsy. -/
def falsy : Option String → Bool
  | none => true
  | some s => s.isEmpty

/-- The graph store as seen by the endpoint: it either returns the
recommendation list or raises. -/
structure GraphService where
  run : String → Except String (List String)

/-- The `/graph_recommend` endpoint handler, with its upstream-call log. -/
def graph_recommend (svc : GraphService) (specimen_name : Option String) :
    HttpResponse × List Call :=
  if falsy specimen_name then
    (⟨400, Body.err "No \"specimen_name\" parameter provided"⟩, [])
  else
    let s := specimen_name.getD ""
    match svc.run s with
    | Except.ok recs => (⟨200, Body.graphOk recs⟩, [Call.graphStore s])
    | Except.error e => (⟨500, Body.err e⟩, [Call.graphStore s])

/-- The `/semantic_recommend` endpoint handler, with its upstream-call
log. -/
def semantic_recommend (svc : Services) (query : Option String) :
    HttpResponse × List Call :=
  if falsy query then
    (⟨400, Body.err "No \"query\" parameter provided"⟩, [])
  else
    let q := query.getD ""
    match semantic_query svc q with
    | (Except.ok r, log) => (⟨200, Body.semanticOk r.1 r.2⟩, log)
    | (Except.error e, log) => (⟨500, Body.err e⟩, log)

/-! ## Pipeline lemmas -/

theorem enrichLoop_ok_map (svc : Services) (q : String) (l : List (String × Metadata)) :
    ∀ recs, (enrichLoop svc q l).1 = Except.ok recs →
      recs.length = l.length ∧
      recs.map (fun r => (r.identifier, r.name)) =
        l.map (fun p => (p.2.specimen_name, p.2.title)) := by
  induction l with
  | nil =>
    intro recs h
    simp only [enrichLoop] at h
    cases h
    simp
  | cons hd tl ih =>
    intro recs h
    obtain ⟨content, metadata⟩ := hd
    simp only [enrichLoop] at h
    rcases hdr : describe_result svc q metadata.title content with ⟨fst, c⟩
    rw [hdr] at h
    cases fst with
    | error e => simp at h
    | ok dj =>
      rcases hrest : enrichLoop svc q tl with ⟨res, cs⟩
      rw [hrest] at h
      cases res with
      | error e => simp at h
      | ok recs0 =>
        simp only at h
        cases h
        have hih := ih recs0 (by rw [hrest])
        simp [hih.1, hih.2]

theorem enrichLoop_ok_of_all (svc : Services) (q : String) (l : List (String × Metadata))
    (hok : ∀ p ∈ l, (describe_result svc q p.2.title p.1).1.isOk = true) :
    ∃ recs, (enrichLoop svc q l).1 = Except.ok recs := by
  induction l with
  | nil => exact ⟨[], rfl⟩
  | cons hd tl ih =>
    obtain ⟨content, metadata⟩ := hd
    have hhd := hok (content, metadata) (List.mem_cons_self _ _)
    rcases hdr : describe_result svc q metadata.title content with ⟨fst, c⟩
    rw [hdr] at hhd
    cases fst with
    | error e => simp [Except.isOk, Except.toBool] at hhd
    | ok dj =>
      obtain ⟨recs0, hrecs0⟩ := ih (fun p hp => hok p (List.mem_cons_of_mem _ hp))
      rcases hrest : enrichLoop svc q tl with ⟨res, cs⟩
      rw [hrest] at hrecs0
      simp only at hrecs0
      subst hrecs0
      refine ⟨{ identifier := metadata.specimen_name, name := metadata.title,
                description := dj.1, justification := dj.2 } :: recs0, ?_⟩
      simp only [enrichLoop, hdr, hrest]

theorem enrichLoop_error_of_fail (svc : Services) (q : String) (l : List (String × Metadata))
    (hfail : ∃ p ∈ l, (describe_result svc q p.2.title p.1).1.isOk = false) :
    ∃ e, (enrichLoop svc q l).1 = Except.error e := by
  induction l with
  | nil => simp at hfail
  | cons hd tl ih =>
    obtain ⟨content, metadata⟩ := hd
    rcases hdr : describe_result svc q metadata.title content with ⟨fst, c⟩
    cases fst with
    | error e =>
      refine ⟨e, ?_⟩
      simp only [enrichLoop, hdr]
    | ok dj =>
      have htl : ∃ p ∈ tl, (describe_result svc q p.2.title p.1).1.isOk = false := by
        obtain ⟨p, hp, hfl⟩ := hfail
        rcases List.mem_cons.1 hp with rfl | hp2
        · rw [hdr] at hfl
          simp [Except.isOk, Except.toBool] at hfl
        · exact ⟨p, hp2, hfl⟩
      obtain ⟨e, he⟩ := ih htl
      rcases hrest : enrichLoop svc q tl with ⟨res, cs⟩
      rw [hrest] at he
      simp only at he
      subst he
      refine ⟨e, ?_⟩
      simp only [enrichLoop, hdr, hrest]

/-- When every per-result parse succeeds, the loop's call log is exactly one
JSON-mode generation call per zipped result, in order. -/
theorem enrichLoop_log_of_ok (svc : Services) (q : String) (l : List (String × Metadata))
    (hok : ∀ p ∈ l, (describe_result svc q p.2.title p.1).1.isOk = true) :
    (enrichLoop svc q l).2 =
      l.map (fun p => Call.chatJson json_system_prompt (result_prompt q p.2.title p.1)) := by
  induction l with
  | nil => rfl
  | cons hd tl ih =>
    obtain ⟨content, metadata⟩ := hd
    have hhd := hok (content, metadata) (List.mem_cons_self _ _)
    rcases hdr : describe_result svc q metadata.title content with ⟨fst, c⟩
    rw [hdr] at hhd
    have hc : c = [Call.chatJson json_system_prompt (result_prompt q metadata.title content)] := by
      have := congrArg Prod.snd hdr
      simpa [describe_result] using this.symm
    cases fst with
    | error e => simp [Except.isOk, Except.toBool] at hhd
    | ok dj =>
      have hih := ih (fun p hp => hok p (List.mem_cons_of_mem _ hp))
      rcases hrest : enrichLoop svc q tl with ⟨res, cs⟩
      rw [hrest] at hih
      simp only at hih
      cases res with
      | error e => simp only [enrichLoop, hdr, hrest, List.map_cons]; rw [hc, hih]; rfl
      | ok recs0 => simp only [enrichLoop, hdr, hrest, List.map_cons]; rw [hc, hih]; rfl

theorem semantic_query_fst (svc : Services) (q : String) :
    (semantic_query svc q).1 =
      ((enrichLoop svc q (((svc.vquery (svc.embed q)).1.take 5).zip
        ((svc.vquery (svc.embed q)).2.take 5))).1).map
        (fun recs => ((describe_results svc q ((svc.vquery (svc.embed q)).1.take 5)).1, recs)) :=
  rfl

theorem semantic_query_snd (svc : Services) (q : String) :
    (semantic_query svc q).2 =
      Call.embed q :: Call.vquery (svc.embed q) ::
        ((describe_results svc q ((svc.vquery (svc.embed q)).1.take 5)).2 ++
          (enrichLoop svc q (((svc.vquery (svc.embed q)).1.take 5).zip
            ((svc.vquery (svc.embed q)).2.take 5))).2) :=
  rfl

/-- Claim C5: if the structured per-result generation output cannot be
parsed for any one of the retrieved results, the whole
`/semantic_recommend` request fails with a 500 error body and no partial
recommendation list is returned. -/
theorem semantic_parse_failure_fails_request (svc : Services) (q : String)
    (hq : q ≠ "")
    (hfail : ∃ p ∈ ((svc.vquery (svc.embed q)).1.take 5).zip
        ((svc.vquery (svc.embed q)).2.take 5),
      (describe_result svc q p.2.title p.1).1.isOk = false) :
    (semantic_recommend svc (some q)).1.status = 500 ∧
    hasErrorField (semantic_recommend svc (some q)).1.body = true ∧
    ∀ gm recs, (semantic_recommend svc (some q)).1.body ≠ Body.semanticOk gm recs := by
  obtain ⟨e, he⟩ := enrichLoop_error_of_fail svc q _ hfail
  have hfst : (semantic_query svc q).1 = Except.error e := by
    rw [semantic_query_fst, he]
    rfl
  have hfalsy : falsy (some q) = false := by
    simp only [falsy]
    rw [← Bool.not_eq_true]
    intro habs
    exact hq ((String.isEmpty_iff q).1 habs)
  rcases hsq : semantic_query svc q with ⟨res, log⟩
  rw [hsq] at hfst
  simp only at hfst
  subst hfst
  have hresp : semantic_recommend svc (some q) = (⟨500, Body.err e⟩, log) := by
    simp only [semantic_recommend, hfalsy, Bool.false_eq_true, if_false,
      Option.getD_some, hsq]
  rw [hresp]
  exact ⟨rfl, rfl, fun gm recs h => Body.noConfusion h⟩

def isChatCall : Call → Bool
  | Call.chat _ => true
  | _ => false

def isJsonCall : Call → Bool
  | Call.chatJson _ _ => true
  | _ => false

/-- Claim C6: for a query retrieving `k ≤ 5` documents, the
summary-generation call receives exactly those `k` document bodies joined
with a blank-line separator, and exactly `k` per-result enrichment calls
are made. -/
theorem semantic_summary_and_call_count (svc : Services) (q : String) (k : Nat)
    (hd : (svc.vquery (svc.embed q)).1.length = k)
    (hm : (svc.vquery (svc.embed q)).2.length = k)
    (hk : k ≤ 5)
    (hok : ∀ p ∈ ((svc.vquery (svc.embed q)).1).zip ((svc.vquery (svc.embed q)).2),
      (describe_result svc q p.2.title p.1).1.isOk = true) :
    (semantic_query svc q).2.countP isChatCall = 1 ∧
    Call.chat (summarize_prompt q
      (String.intercalate "\n\n" (svc.vquery (svc.embed q)).1)) ∈ (semantic_query svc q).2 ∧
    (semantic_query svc q).2.countP isJsonCall = k := by
  have htake1 : (svc.vquery (svc.embed q)).1.take 5 = (svc.vquery (svc.embed q)).1 :=
    List.take_of_length_le (by omega)
  have htake2 : (svc.vquery (svc.embed q)).2.take 5 = (svc.vquery (svc.embed q)).2 :=
    List.take_of_length_le (by omega)
  have hlog : (semantic_query svc q).2 =
      Call.embed q :: Call.vquery (svc.embed q) ::
        (Call.chat (summarize_prompt q
            (String.intercalate "\n\n" (svc.vquery (svc.embed q)).1)) ::
          ((svc.vquery (svc.embed q)).1.zip ((svc.vquery (svc.embed q)).2)).map
            (fun p => Call.chatJson json_system_prompt (result_prompt q p.2.title p.1))) := by
    rw [semantic_query_snd, htake1, htake2, enrichLoop_log_of_ok svc q _ hok]
    rfl
  rw [hlog]
  refine ⟨?_, ?_, ?_⟩
  · simp [List.countP_cons, List.countP_map, isChatCall, Function.comp_def]
  · simp
  · simp only [List.countP_cons, List.countP_map, Function.comp_def]
    simp [isJsonCall, List.countP_true, List.length_zip, hd, hm]

/-- Claim C7 (amended): on success the recommendation list has length
`min 5 k` where `k` is the number of documents retrieved — equal to `k`
whenever `k ≤ 5`, and capped at 5 otherwise. -/
theorem semantic_results_length_min (svc : Services) (q : String)
    (hlen : (svc.vquery (svc.embed q)).2.length = (svc.vquery (svc.embed q)).1.length)
    (hok : ∀ p ∈ ((svc.vquery (svc.embed q)).1.take 5).zip
        ((svc.vquery (svc.embed q)).2.take 5),
      (describe_result svc q p.2.title p.1).1.isOk = true) :
    ∃ gm recs, (semantic_query svc q).1 = Except.ok (gm, recs) ∧
      recs.length = min 5 (svc.vquery (svc.embed q)).1.length ∧
      recs.length ≤ 5 := by
  obtain ⟨recs, hrecs⟩ := enrichLoop_ok_of_all svc q _ hok
  have hlen2 := (enrichLoop_ok_map svc q _ recs hrecs).1
  refine ⟨(describe_results svc q ((svc.vquery (svc.embed q)).1.take 5)).1, recs, ?_, ?_, ?_⟩
  · rw [semantic_query_fst, hrecs]
    rfl
  · rw [hlen2]
    simp only [List.length_zip, List.length_take, hlen]
    omega
  · rw [hlen2]
    simp only [List.length_zip, List.length_take]
    omega

/-- Claim C8: on success, each metadata `specimen_name` is surfaced
unchanged as the `identifier` of the corresponding response entry, and the
metadata `title` as its `name`, in retrieval order. -/
theorem semantic_identifier_roundtrip (svc : Services) (q : String)
    (gm : String) (recs : List Recommendation)
    (h : (semantic_query svc q).1 = Except.ok (gm, recs)) :
    recs.map (fun r => (r.identifier, r.name)) =
      (((svc.vquery (svc.embed q)).1.take 5).zip
        ((svc.vquery (svc.embed q)).2.take 5)).map
        (fun p => (p.2.specimen_name, p.2.title)) := by
  rw [semantic_query_fst] at h
  rcases henr : (enrichLoop svc q (((svc.vquery (svc.embed q)).1.take 5).zip
      ((svc.vquery (svc.embed q)).2.take 5))).1 with e | recs0
  · rw [henr] at h
    simp [Except.map] at h
  · rw [henr] at h
    simp only [Except.map] at h
    injection h with h2
    have : recs0 = recs := congrArg Prod.snd h2
    subst this
    exact (enrichLoop_ok_map svc q _ recs0 henr).2

/-- Claim C9: a request with the required query parameter missing yields a
400 response with an error body and performs no upstream call, on both
endpoints. -/
theorem missing_param_400_no_calls (gsvc : GraphService) (svc : Services) :
    graph_recommend gsvc none =
      (⟨400, Body.err "No \"specimen_name\" parameter provided"⟩, []) ∧
    semantic_recommend svc none =
      (⟨400, Body.err "No \"query\" parameter provided"⟩, []) ∧
    hasErrorField (graph_recommend gsvc none).1.body = true ∧
    hasErrorField (semantic_recommend svc none).1.body = true :=
  ⟨rfl, rfl, rfl, rfl⟩

/-- Claim C10: a present-but-empty required parameter takes the same
falsiness branch as an absent one: both endpoints return the identical 400
missing-parameter error response and the two cases are indistinguishable at
the public interface. -/
theorem empty_param_same_as_missing (gsvc : GraphService) (svc : Services) :
    graph_recommend gsvc (some "") = graph_recommend gsvc none ∧
    semantic_recommend svc (some "") = semantic_recommend svc none ∧
    (graph_recommend gsvc (some "")).1.status = 400 ∧
    hasErrorField (graph_recommend gsvc (some "")).1.body = true ∧
    (semantic_recommend svc (some "")).1.status = 400 ∧
    hasErrorField (semantic_recommend svc (some "")).1.body = true :=
  ⟨rfl, rfl, rfl, rfl, rfl, rfl⟩

/-! ## Concrete oracle services for witnesses and counterexamples -/

/-- Services for a scenario retrieving three documents, every structured
output parseable. -/
def svc3 : Services :=
  { embed := fun _ => [1],
    vquery := fun _ =>
      (["body one", "body two", "body three"],
       [⟨"shark_a", "Shark Tooth A"⟩, ⟨"shark_b", "Shark Tooth B"⟩,
        ⟨"shark_c", "Shark Tooth C"⟩]),
    chat := fun _ => "a friendly summary",
    chatJson := fun _ _ => "raw structured output",
    parseStructured := fun _ => Except.ok ("a description", "a justification") }

/-- Services whose vector store returns six documents, every structured
output parseable. -/
def svc6 : Services :=
  { embed := fun _ => [1],
    vquery := fun _ =>
      (["b1", "b2", "b3", "b4", "b5", "b6"],
       [⟨"s1", "t1"⟩, ⟨"s2", "t2"⟩, ⟨"s3", "t3"⟩, ⟨"s4", "t4"⟩,
        ⟨"s5", "t5"⟩, ⟨"s6", "t6"⟩]),
    chat := fun _ => "a friendly summary",
    chatJson := fun _ _ => "raw structured output",
    parseStructured := fun _ => Except.ok ("a description", "a justification") }

/-- Services whose generation backend returns text that never parses. -/
def svcFail : Services :=
  { embed := fun _ => [1],
    vquery := fun _ => (["body one"], [⟨"shark_a", "Shark Tooth A"⟩]),
    chat := fun _ => "a friendly summary",
    chatJson := fun _ _ => "not json at all",
    parseStructured := fun _ => Except.error "Expecting value: line 1 column 1" }

/-- Length of the recommendation list of a successful pipeline outcome. -/
def okRecsLength : Except String (String × List Recommendation) → Option Nat
  | Except.ok r => some r.2.length
  | Except.error _ => none

/-- Counterexample to claim C7 as stated: when the vector store retrieves
six documents the request succeeds with five recommendations, so the result
length differs from the number of documents retrieved. -/
theorem semantic_results_length_counterexample :
    okRecsLength (semantic_query svc6 "q").1 = some 5 ∧
    (svc6.vquery (svc6.embed "q")).1.length = 6 :=
  ⟨rfl, rfl⟩

/-- The parse-failure theorem instantiated on the concrete failing
backend. -/
theorem semantic_parse_failure_witness :
    (semantic_recommend svcFail (some "ancient shark tooth")).1.status = 500 :=
  (semantic_parse_failure_fails_request svcFail "ancient shark tooth" (by decide)
    ⟨("body one", ⟨"shark_a", "Shark Tooth A"⟩), by decide, by decide⟩).1

/-- The summary-input and call-count theorem instantiated on the
three-document scenario. -/
theorem semantic_summary_witness :
    (semantic_query svc3 "ancient shark tooth").2.countP isChatCall = 1 :=
  (semantic_summary_and_call_count svc3 "ancient shark tooth" 3 rfl rfl
    (by omega) (by decide)).1

/-- The amended result-length theorem instantiated on the three-document
scenario. -/
theorem semantic_results_length_min_witness :
    ∃ gm recs, (semantic_query svc3 "q").1 = Except.ok (gm, recs) ∧
      recs.length = min 5 (svc3.vquery (svc3.embed "q")).1.length ∧
      recs.length ≤ 5 :=
  semantic_results_length_min svc3 "q" rfl (by decide)

/-- The identifier round-trip theorem instantiated on the three-document
scenario. -/
theorem semantic_identifier_roundtrip_witness :
    ([⟨"shark_a", "Shark Tooth A", "a description", "a justification"⟩,
      ⟨"shark_b", "Shark Tooth B", "a description", "a justification"⟩,
      ⟨"shark_c", "Shark Tooth C", "a description", "a justification"⟩] :
        List Recommendation).map (fun r => (r.identifier, r.name)) =
      (((svc3.vquery (svc3.embed "q")).1.take 5).zip
        ((svc3.vquery (svc3.embed "q")).2.take 5)).map
        (fun p => (p.2.specimen_name, p.2.title)) :=
  semantic_identifier_roundtrip svc3 "q" "a friendly summary"
    [⟨"shark_a", "Shark Tooth A", "a description", "a justification"⟩,
     ⟨"shark_b", "Shark Tooth B", "a description", "a justification"⟩,
     ⟨"shark_c", "Shark Tooth C", "a description", "a justification"⟩] rfl

end VRMuseum
